import Mathlib

/-!
Verification development for the plug-in architecture demo
(`src/README.md`: `events.ts` EventEmitter and `Core.ts` plugin registry).

The TypeScript is embedded shallowly:

* JS function values have reference identity, which `off` compares with
  `===`.  Handlers are therefore modelled by the inductive `Fn`: `user i`
  is an opaque caller-supplied function (identified by `i`), and
  `magic uid ty inner ctx` is the closure allocated by `once` (the source's
  `magic`); `uid` is drawn from a fresh counter in the emitter state so two
  allocations are never equal, `ty` and `ctx` are the values captured by
  the closure, and `inner` is the wrapped handler (stored on the closure as
  its `fn` property).
* The mutable `this` of the emitter becomes explicit state passing: every
  operation takes and returns an `EventEmitter` record.
* The observable behaviour of invoking a caller-supplied handler is given
  by an environment `Env`: for a handler id and the argument list it yields
  the bus mutations the handler body performs (`Action` list) and the
  handler's JS return value (`Val`).  Handler invocations are recorded in
  an `invocations` trace so that claims about "which handlers fire, in
  which order, with which context and arguments" are statable.
* `warn(...)` from `debug.ts` appends the offending type name to a
  `warnings` trace (the formatted message text is irrelevant to the
  claims).
-/

namespace PlugInArch

/-- A JS value as far as the emitter can observe it: dispatch only compares
return values against the literal `true` (`ret === true`). -/
inductive Val where
  | undef
  | boolTrue
  | boolFalse
  | num (n : Int)
  | str (s : String)
deriving DecidableEq, Repr

/-- A JS function value subscribed on the bus, with reference identity.
`user i` is an opaque caller handler; `magic uid ty inner ctx` is the
adapter closure created by `once` (its `fn` property holds `inner`). -/
inductive Fn where
  | user (id : Nat)
  | magic (uid : Nat) (ty : String) (inner : Fn) (ctx : Option Nat)
deriving DecidableEq, Repr

/-- The `fn` property read by `off` (`events[count][0].fn`): set only on the
`once` adapter (`magic.fn = fn`), `undefined` on a plain handler. -/
def fnProp : Fn → Option Fn
  | Fn.user _ => none
  | Fn.magic _ _ inner _ => some inner

/-- State of one `EventEmitter` (`events.ts`).  `events` is the
type-to-subscriptions map (a subscription is `[fn, context]`; `none` as
context stands for the emitter itself, the `= this` default), `eventTypes`
the declared-type table, `warnings` the trace of `warn` diagnostics (one
entry per offending type), `invocations` the trace of caller-handler
invocations `(id, context, args)`, and `fresh` the allocator for `once`
adapter identities. -/
structure EventEmitter where
  events : List (String × List (Fn × Option Nat))
  eventTypes : List String
  warnings : List String
  invocations : List (Nat × Option Nat × List Val)
  fresh : Nat
deriving DecidableEq, Repr

/-- JS object property write `o[k] = v`: replace the binding of `k`, or add
it.  (`events` keys are unique by construction.) -/
def alSet {α : Type} (l : List (String × α)) (k : String) (v : α) : List (String × α) :=
  match l with
  | [] => [(k, v)]
  | (k', v') :: rest => if k' = k then (k, v) :: rest else (k', v') :: alSet rest k v

/-- `hasType` (`events.ts`): `types[type] === type` holds exactly when the
type was declared; otherwise `warn(...)` fires and nothing else happens. -/
def hasType (t : String) (s : EventEmitter) : EventEmitter :=
  if t ∈ s.eventTypes then s else { s with warnings := s.warnings ++ [t] }

/-- `on(type, fn, context = this)`: validate the type, create the list if
absent, push `[fn, context]`.  Returns `this` (the new state). -/
def onFn (t : String) (f : Fn) (c : Option Nat) (s : EventEmitter) : EventEmitter :=
  let s1 := hasType t s
  { s1 with events := alSet s1.events t (((List.lookup t s1.events).getD []) ++ [(f, c)]) }

/-- `once(type, fn, context = this)`: validate the type, allocate the
`magic` adapter capturing `type`, `fn` and `context`, set `magic.fn = fn`,
and register it via `on(type, magic)` — note the adapter is registered with
the *default* context (`this`), the captured context is only used when the
adapter applies `fn`.  (`on` runs `hasType` a second time.) -/
def once (t : String) (f : Fn) (c : Option Nat) (s : EventEmitter) : EventEmitter :=
  let s1 := hasType t s
  let m := Fn.magic s1.fresh t f c
  onFn t m none { s1 with fresh := s1.fresh + 1 }

/-- The removal test of `off(type, fn)`:
`events[count][0] === fn || (events[count][0] && events[count][0].fn === fn)`
(a stored function is always truthy). -/
def offMatch (f g : Fn) : Bool :=
  decide (g = f) || decide (fnProp g = some f)

/-- `off(type?, fn?)` (`events.ts`).  JS truthiness is modelled faithfully:
`!type` holds when `type` is `undefined` *or* the empty string, `!fn`
exactly when `fn` is `undefined` (functions are truthy).  The source's
reverse `while (count--) ... splice(count, 1)` loop examines every index
once, from the end, so its net effect is removing every matching
subscription while preserving the order of the others — the filter below.
The `Bool` component records whether the call returned `this` (every
explicit `return this`) or fell off the end returning `undefined`. -/
def off (ty : Option String) (f : Option Fn) (s : EventEmitter) : EventEmitter × Bool :=
  let tTruthy : Bool := match ty with
    | none => false
    | some str => !str.isEmpty
  if !tTruthy && f.isNone then
    ({ s with events := [] }, true)
  else if tTruthy then
    let t := ty.getD ""
    let s1 := hasType t s
    match f with
    | none => ({ s1 with events := alSet s1.events t [] }, true)
    | some g =>
      match List.lookup t s1.events with
      | none => (s1, true)
      | some evs =>
        ({ s1 with events := alSet s1.events t (evs.filter (fun p => !offMatch g p.1)) }, true)
  else
    (s, false)

/-- A bus mutation a caller-supplied handler body may perform (the
re-entrant `on` / `once` / `off` calls of §5 of the spec; handler arguments
to `on`/`once` are caller functions, i.e. `Fn.user`). -/
inductive Action where
  | actOn (ty : String) (hid : Nat) (ctx : Option Nat)
  | actOnce (ty : String) (hid : Nat) (ctx : Option Nat)
  | actOff (ty : Option String) (hid : Option Nat)
deriving DecidableEq, Repr

/-- Behaviour of the opaque caller handlers: for a handler id and the
dispatch arguments, the bus mutations its body performs and its return
value. -/
def Env : Type := Nat → List Val → List Action × Val

/-- Run one handler-body bus mutation. -/
def execAction (a : Action) (s : EventEmitter) : EventEmitter :=
  match a with
  | Action.actOn ty hid ctx => onFn ty (Fn.user hid) ctx s
  | Action.actOnce ty hid ctx => once ty (Fn.user hid) ctx s
  | Action.actOff ty hid => (off ty (hid.map Fn.user) s).1

/-- Run a handler body's bus mutations in order. -/
def execActions : List Action → EventEmitter → EventEmitter
  | [], s => s
  | a :: rest, s => execActions rest (execAction a s)

/-- `fn.apply(context, args)` for a subscribed function.  A caller handler
records its invocation, performs its body's mutations and returns its
value.  The `once` adapter (an arrow function, so the apply-context `c` is
ignored) first calls `this.off(type, magic)` — removing itself — then
applies the wrapped handler with the captured context, and returns that
result only when it is literally `true` (otherwise the adapter body falls
through, returning `undefined`). -/
def applyFn (env : Env) : Fn → Option Nat → List Val → EventEmitter → EventEmitter × Val
  | Fn.user i, c, args, s =>
    let acts := (env i args).1
    let s1 := { s with invocations := s.invocations ++ [(i, c, args)] }
    (execActions acts s1, (env i args).2)
  | Fn.magic uid ty inner mctx, _, args, s =>
    let s1 := (off (some ty) (some (Fn.magic uid ty inner mctx)) s).1
    let p := applyFn env inner mctx args s1
    (p.1, if p.2 = Val.boolTrue then Val.boolTrue else Val.undef)

/-- The `for` loop of `trigger` over the snapshot `eventsCopy`:
`ret = fn.apply(context, args); if (ret === true) return ret;`; after the
loop the function returns `undefined`. -/
def triggerLoop (env : Env) (args : List Val) : List (Fn × Option Nat) → EventEmitter → EventEmitter × Val
  | [], s => (s, Val.undef)
  | (f, c) :: rest, s =>
    let p := applyFn env f c args s
    if p.2 = Val.boolTrue then (p.1, Val.boolTrue)
    else triggerLoop env args rest p.1

/-- `trigger(type, ...args)`: validate the type; if no subscription list
exists return `undefined`; otherwise iterate a shallow copy
(`[...events]`) of the current list — in this functional embedding the
looked-up list value *is* that snapshot, later mutations build new lists. -/
def trigger (env : Env) (t : String) (args : List Val) (s : EventEmitter) : EventEmitter × Val :=
  let s1 := hasType t s
  match List.lookup t s1.events with
  | none => (s1, Val.undef)
  | some evs => triggerLoop env args evs s1

/-- `registerType(names)`: `eventTypes[type] = type` for each name
(idempotent set insertion). -/
def registerType (names : List String) (s : EventEmitter) : EventEmitter :=
  { s with eventTypes := names.foldl (fun ts n => if n ∈ ts then ts else ts ++ [n]) s.eventTypes }

/-- `destroy()`: reset both the subscription map and the declared types. -/
def destroy (s : EventEmitter) : EventEmitter :=
  { s with events := [], eventTypes := [] }

/-- The `EventEmitter` constructor: empty state, then `registerType(names)`. -/
def mkEmitter (names : List String) : EventEmitter :=
  registerType names { events := [], eventTypes := [], warnings := [], invocations := [], fresh := 0 }
/-- The user-handler invocation entries produced by applying one subscribed
function: a caller handler contributes its own entry, the `once` adapter
contributes whatever applying the wrapped handler (with the captured
context) contributes.  This is state-independent by construction — used to
express "the pass invokes exactly these handlers". -/
def invLog (args : List Val) : Fn → Option Nat → List (Nat × Option Nat × List Val)
  | Fn.user i, c => [(i, c, args)]
  | Fn.magic _ _ inner mctx, _ => invLog args inner mctx

/-- The return value produced by applying one subscribed function (also
state-independent): a caller handler returns what its body returns, the
`once` adapter gates that through `=== true`. -/
def invVal (env : Env) (args : List Val) : Fn → Val
  | Fn.user i => (env i args).2
  | Fn.magic _ _ inner _ =>
    if invVal env args inner = Val.boolTrue then Val.boolTrue else Val.undef

/-- The ids of the caller handlers a subscribed function would invoke. -/
def fnIds : Fn → List Nat
  | Fn.user i => [i]
  | Fn.magic _ _ inner _ => fnIds inner

/-- Invocation entries of a whole subscription list, in list order. -/
def invokedLog (args : List Val) : List (Fn × Option Nat) → List (Nat × Option Nat × List Val)
  | [] => []
  | (f, c) :: rest => invLog args f c ++ invokedLog args rest

/-- Specification-side description of one dispatch pass over a snapshot:
the invocation entries produced and the value returned, honouring the
`=== true` short-circuit.  (Derived characterisation of `triggerLoop`.) -/
def specLoop (env : Env) (args : List Val) : List (Fn × Option Nat) → List (Nat × Option Nat × List Val) × Val
  | [] => ([], Val.undef)
  | (f, c) :: rest =>
    if invVal env args f = Val.boolTrue then (invLog args f c, Val.boolTrue)
    else
      let p := specLoop env args rest
      (invLog args f c ++ p.1, p.2)

/-- Modelled from the spec (§8, first testable property): the expected
dispatch outcome for a sequence of plain `on`-registered handlers — each
fires in registration order with its stored context and the trigger
arguments, stopping (with `true`) right after the first handler returning
literal `true`, otherwise returning no explicit value. -/
def specDispatch (env : Env) (args : List Val) : List (Nat × Option Nat) → List (Nat × Option Nat × List Val) × Val
  | [] => ([], Val.undef)
  | (i, c) :: rest =>
    if (env i args).2 = Val.boolTrue then ([(i, c, args)], Val.boolTrue)
    else
      let p := specDispatch env args rest
      ((i, c, args) :: p.1, p.2)

/-- Register a sequence of plain handlers `(id, context)` on one type. -/
def onFold (t : String) (hs : List (Nat × Option Nat)) (s : EventEmitter) : EventEmitter :=
  hs.foldl (fun s p => onFn t (Fn.user p.1) p.2 s) s

/-- Subscription shapes creatable through the public API in one step:
a plain handler (`on`) or a `once` adapter around a plain handler. -/
def fnShapeOK : Fn → Bool
  | Fn.user _ => true
  | Fn.magic _ _ (Fn.user _) _ => true
  | _ => false

/-!  The plugin registry and host construction (`Core.ts`).  -/

/-- `ApplyOrder` (better-scroll's `shared-utils`): the two explicit tags;
an absent tag is the default (comparator key 0). -/
inductive ApplyOrder where
  | pre
  | post
deriving DecidableEq, Repr

/-- A plugin constructor (`PluginCtor`): `ref` models JS reference identity
of the class object (the `===` compared by `use`), `pluginName` the static
`pluginName`, `applyOrder` the optional static `applyOrder`. -/
structure PluginCtor where
  ref : Nat
  pluginName : String
  applyOrder : Option ApplyOrder
deriving DecidableEq, Repr

/-- A registry descriptor (`PluginItem`): `{ name, applyOrder, ctor }`. -/
structure PluginItem where
  name : String
  applyOrder : Option ApplyOrder
  ctor : PluginCtor
deriving DecidableEq, Repr

/-- The static registry of `CoreConstructor`: the ordered `plugins` list
and the `pluginsMap` name set. -/
structure RegistryState where
  plugins : List PluginItem
  pluginsMap : List String
deriving DecidableEq, Repr

/-- `CoreConstructor.use(ctor)`: a no-op when this exact constructor
reference is already registered, otherwise mark the name in `pluginsMap`
and append `{ name, applyOrder, ctor }`.  Both source branches
`return CoreConstructor` (the chainable handle); the state transition is
what is modelled. -/
def use (ctor : PluginCtor) (s : RegistryState) : RegistryState :=
  let name := ctor.pluginName
  let installed := s.plugins.any (fun p => decide (p.ctor = ctor))
  if installed then s
  else
    { plugins := s.plugins ++ [{ name := name, applyOrder := ctor.applyOrder, ctor := ctor }],
      pluginsMap := if name ∈ s.pluginsMap then s.pluginsMap else s.pluginsMap ++ [name] }

/-- The comparator key of `applyPlugins`' sort:
`applyOrderMap = { Pre: -1, Post: 1 }`, absent (falsy) tag ↦ 0. -/
def orderKey (it : PluginItem) : Int :=
  match it.applyOrder with
  | some ApplyOrder.pre => -1
  | some ApplyOrder.post => 1
  | none => 0

/-- `plugins.sort((a, b) => aOrder - bOrder)`: `Array.prototype.sort` is
stable (ES2019), and a stable sort by a key taking only the values
-1, 0, 1 is exactly the concatenation of the three key buckets in
original order. -/
def sortPlugins (l : List PluginItem) : List PluginItem :=
  l.filter (fun it => decide (orderKey it = -1))
    ++ l.filter (fun it => decide (orderKey it = 0))
    ++ l.filter (fun it => decide (orderKey it = 1))

/-- The truthiness of `options[name]` for each registered plugin name
(the merged options object, reduced to the only thing `applyPlugins`
reads from it). -/
def Options : Type := String → Bool

/-- `applyPlugins`: walk the sorted registry and, for each enabled
descriptor (`options[item.name]` truthy; `typeof ctor === 'function'`
always holds for a registered class), instantiate `new ctor(this)` —
recorded as the pair `(name, ctor.ref)` in instantiation order; the
resulting association list is the host's `plugins` map
(`this.plugins[item.name] = new ctor(this)`). -/
def applyPlugins (registry : List PluginItem) (options : Options) : List (String × Nat) :=
  (sortPlugins registry).foldl
    (fun acc it => if options it.name then acc ++ [(it.name, it.ctor.ref)] else acc) []

/-- A constructed host (`CoreConstructor`'s instance fields that the claims
observe): the name-to-instance plugin map in instantiation order, and the
hooks bus built in the constructor. -/
structure Host where
  plugins : List (String × Nat)
  hooks : EventEmitter

/-- The `CoreConstructor` constructor: merge options, create the buses,
then `applyPlugins` against the shared registry. -/
def mkHost (registry : List PluginItem) (options : Options) : Host :=
  { plugins := applyPlugins registry options, hooks := mkEmitter [] }
/-!  Concrete instances used by witnesses and counterexamples.  -/

/-- Handlers that do nothing and return `undefined`. -/
def env0 : Env := fun _ _ => ([], Val.undef)

/-- Handlers that do nothing; handler 1 returns literal `true`, the others
`undefined`. -/
def envT : Env := fun i _ => ([], if i = 1 then Val.boolTrue else Val.undef)

/-- Handler 1 unsubscribes handler 2 from `"ev"` during its own invocation;
every handler returns `undefined`. -/
def envOffAct : Env :=
  fun i _ => (if i = 1 then [Action.actOff (some "ev") (some 2)] else [], Val.undef)

/-- Handlers that do nothing and return the number `42`. -/
def env42 : Env := fun _ _ => ([], Val.num 42)

/-- Plugin constructor `A`, apply-order `Pre`. -/
def ctorA : PluginCtor := { ref := 0, pluginName := "A", applyOrder := some ApplyOrder.pre }

/-- Plugin constructor `B`, apply-order `Post`. -/
def ctorB : PluginCtor := { ref := 1, pluginName := "B", applyOrder := some ApplyOrder.post }

/-- Plugin constructor `C`, default apply-order. -/
def ctorC : PluginCtor := { ref := 2, pluginName := "C", applyOrder := none }

/-- The registry after `use(A); use(B); use(C)` starting from empty. -/
def regABC : RegistryState := use ctorC (use ctorB (use ctorA { plugins := [], pluginsMap := [] }))

/-- A constructor named `"p"` (identity 0). -/
def ctorP0 : PluginCtor := { ref := 0, pluginName := "p", applyOrder := none }

/-- A different constructor (identity 1) sharing the name `"p"`. -/
def ctorP1 : PluginCtor := { ref := 1, pluginName := "p", applyOrder := none }

/-- The registry holding only `ctorP0`. -/
def regP : RegistryState := use ctorP0 { plugins := [], pluginsMap := [] }

/-!  Helper lemmas.  -/

@[simp]
theorem hasType_events (t : String) (s : EventEmitter) : (hasType t s).events = s.events := by
  unfold hasType; split <;> rfl

@[simp]
theorem hasType_invocations (t : String) (s : EventEmitter) :
    (hasType t s).invocations = s.invocations := by
  unfold hasType; split <;> rfl

@[simp]
theorem hasType_fresh (t : String) (s : EventEmitter) : (hasType t s).fresh = s.fresh := by
  unfold hasType; split <;> rfl

@[simp]
theorem hasType_eventTypes (t : String) (s : EventEmitter) :
    (hasType t s).eventTypes = s.eventTypes := by
  unfold hasType; split <;> rfl

theorem hasType_of_not_mem (t : String) (s : EventEmitter) (h : t ∉ s.eventTypes) :
    hasType t s = { s with warnings := s.warnings ++ [t] } := by
  unfold hasType; simp [h]

@[simp]
theorem lookup_alSet_self {α : Type} (l : List (String × α)) (k : String) (v : α) :
    List.lookup k (alSet l k v) = some v := by
  induction l with
  | nil => simp [alSet, List.lookup]
  | cons hd tl ih =>
    obtain ⟨k', v'⟩ := hd
    by_cases h : k' = k
    · simp [alSet, h, List.lookup]
    · have hb : (k == k') = false := beq_eq_false_iff_ne.mpr (Ne.symm h)
      simp [alSet, h, List.lookup, hb, ih]

@[simp]
theorem onFn_invocations (t : String) (f : Fn) (c : Option Nat) (s : EventEmitter) :
    (onFn t f c s).invocations = s.invocations := by
  simp [onFn]

@[simp]
theorem onFn_fresh (t : String) (f : Fn) (c : Option Nat) (s : EventEmitter) :
    (onFn t f c s).fresh = s.fresh := by
  simp [onFn]

@[simp]
theorem onFn_lookup_self (t : String) (f : Fn) (c : Option Nat) (s : EventEmitter) :
    List.lookup t (onFn t f c s).events
      = some (((List.lookup t s.events).getD []) ++ [(f, c)]) := by
  simp [onFn]

@[simp]
theorem once_invocations (t : String) (f : Fn) (c : Option Nat) (s : EventEmitter) :
    (once t f c s).invocations = s.invocations := by
  simp [once]

@[simp]
theorem off_invocations (ty : Option String) (f : Option Fn) (s : EventEmitter) :
    ((off ty f s).1).invocations = s.invocations := by
  cases ty with
  | none => cases f <;> rfl
  | some t =>
    by_cases he : t.isEmpty
    · cases f with
      | none => simp [off, he]
      | some g => simp [off, he]
    · cases f with
      | none => simp [off, he]
      | some g =>
        simp only [off, he, Bool.not_false, Bool.not_true, Bool.false_and, Bool.not_eq_true,
          Option.isNone_some, Bool.and_false, Bool.if_false_left, hasType_events]
        simp only [Option.getD_some, hasType_events]
        cases h : List.lookup t s.events <;> simp [h, he]

@[simp]
theorem execAction_invocations (a : Action) (s : EventEmitter) :
    (execAction a s).invocations = s.invocations := by
  cases a <;> simp [execAction]

@[simp]
theorem execActions_invocations (acts : List Action) (s : EventEmitter) :
    (execActions acts s).invocations = s.invocations := by
  induction acts generalizing s with
  | nil => rfl
  | cons a rest ih => simp [execActions, ih]

/-- What applying one subscribed function does to the invocation trace and
what it returns: the trace is extended by exactly `invLog` (independently
of the state), and the value is `invVal` (likewise). -/
theorem applyFn_spec (env : Env) (f : Fn) (c : Option Nat) (args : List Val) (s : EventEmitter) :
    (applyFn env f c args s).1.invocations = s.invocations ++ invLog args f c
      ∧ (applyFn env f c args s).2 = invVal env args f := by
  induction f generalizing c s with
  | user i => simp [applyFn, invLog, invVal]
  | magic uid ty inner mctx ih =>
    refine ⟨?_, ?_⟩
    · simp [applyFn, invLog, (ih mctx _).1]
    · simp [applyFn, invVal, (ih mctx _).2]

/-- What the dispatch loop does to the invocation trace and what it
returns, as `specLoop` over the snapshot. -/
theorem triggerLoop_spec (env : Env) (args : List Val) (l : List (Fn × Option Nat)) (s : EventEmitter) :
    (triggerLoop env args l s).1.invocations = s.invocations ++ (specLoop env args l).1
      ∧ (triggerLoop env args l s).2 = (specLoop env args l).2 := by
  induction l generalizing s with
  | nil => simp [triggerLoop, specLoop]
  | cons p rest ih =>
    obtain ⟨f, c⟩ := p
    have hs := applyFn_spec env f c args s
    by_cases hv : invVal env args f = Val.boolTrue
    · simp [triggerLoop, specLoop, hs.1, hs.2, hv]
    · simp [triggerLoop, specLoop, hs.1, hs.2, hv, (ih _).1, (ih _).2, List.append_assoc]

/-- Without a `true` short-circuit, the pass invokes the whole snapshot. -/
theorem specLoop_no_true (env : Env) (args : List Val) (l : List (Fn × Option Nat))
    (h : ∀ p ∈ l, invVal env args p.1 ≠ Val.boolTrue) :
    specLoop env args l = (invokedLog args l, Val.undef) := by
  induction l with
  | nil => rfl
  | cons p rest ih =>
    obtain ⟨f, c⟩ := p
    have hf : invVal env args f ≠ Val.boolTrue := h (f, c) (by simp)
    have := ih (fun q hq => h q (by simp [hq]))
    simp [specLoop, invokedLog, hf, this]

/-- `specLoop` over a snapshot of plain handlers is `specDispatch`. -/
theorem specLoop_users (env : Env) (args : List Val) (hs : List (Nat × Option Nat)) :
    specLoop env args (hs.map (fun p => (Fn.user p.1, p.2))) = specDispatch env args hs := by
  induction hs with
  | nil => rfl
  | cons p rest ih =>
    obtain ⟨i, c⟩ := p
    by_cases hv : (env i args).2 = Val.boolTrue
    · simp [specLoop, specDispatch, invLog, invVal, hv]
    · simp [specLoop, specDispatch, invLog, invVal, hv, ih]

/-- Registering at least one handler appends them, in order, to the type's
list (creating it if needed). -/
theorem onFold_lookup (t : String) (hs : List (Nat × Option Nat)) (s : EventEmitter)
    (hne : hs ≠ []) :
    List.lookup t (onFold t hs s).events
      = some (((List.lookup t s.events).getD []) ++ hs.map (fun p => (Fn.user p.1, p.2))) := by
  induction hs generalizing s with
  | nil => exact absurd rfl hne
  | cons p rest ih =>
    obtain ⟨i, c⟩ := p
    have step : onFold t ((i, c) :: rest) s = onFold t rest (onFn t (Fn.user i) c s) := rfl
    rcases Decidable.em (rest = []) with hr | hr
    · subst hr
      simp [step, onFold]
    · rw [step, ih _ hr]
      simp [List.append_assoc]

@[simp]
theorem onFold_invocations (t : String) (hs : List (Nat × Option Nat)) (s : EventEmitter) :
    (onFold t hs s).invocations = s.invocations := by
  induction hs generalizing s with
  | nil => rfl
  | cons p rest ih =>
    have step : onFold t (p :: rest) s = onFold t rest (onFn t (Fn.user p.1) p.2 s) := rfl
    rw [step, ih]
    simp
theorem foldl_instantiate (options : Options) (l : List PluginItem) (acc : List (String × Nat)) :
    l.foldl (fun acc it => if options it.name then acc ++ [(it.name, it.ctor.ref)] else acc) acc
      = acc ++ l.filterMap (fun it => if options it.name then some (it.name, it.ctor.ref) else none) := by
  induction l generalizing acc with
  | nil => simp
  | cons it rest ih =>
    by_cases h : options it.name <;> simp [h, ih, List.filterMap_cons]

theorem applyPlugins_eq (registry : List PluginItem) (options : Options) :
    applyPlugins registry options
      = (sortPlugins registry).filterMap
          (fun it => if options it.name then some (it.name, it.ctor.ref) else none) := by
  unfold applyPlugins
  rw [foldl_instantiate]
  simp

theorem lookup_eq_none_of (l : List (String × Nat)) (k : String)
    (h : ∀ p ∈ l, p.1 ≠ k) : List.lookup k l = none := by
  rw [List.lookup_eq_none_iff]
  intro p hp
  exact bne_iff_ne.mpr (Ne.symm (h p hp))

theorem mem_sortPlugins {it : PluginItem} {l : List PluginItem} (h : it ∈ sortPlugins l) :
    it ∈ l := by
  simp only [sortPlugins, List.mem_append] at h
  rcases h with (h | h) | h <;> exact (List.mem_filter.mp h).1

theorem key_and_ne {j k : Int} (hjk : k ≠ j) (a : PluginItem) :
    (decide (orderKey a = k) && decide (orderKey a = j)) = false := by
  by_cases h : orderKey a = k
  · simp [h, hjk]
  · simp [h]

theorem bucket_self (l : List PluginItem) (k : Int) :
    (l.filter (fun it => decide (orderKey it = k))).filter (fun it => decide (orderKey it = k))
      = l.filter (fun it => decide (orderKey it = k)) := by
  rw [List.filter_filter]
  exact List.filter_congr (fun a _ => Bool.and_self _)

theorem bucket_other (l : List PluginItem) {j k : Int} (hjk : k ≠ j) :
    (l.filter (fun it => decide (orderKey it = j))).filter (fun it => decide (orderKey it = k))
      = [] := by
  rw [List.filter_filter]
  exact List.filter_eq_nil_iff.mpr (fun a _ => by simp [key_and_ne hjk])

theorem pairwise_bucket (l : List PluginItem) (k : Int) :
    (l.filter (fun it => decide (orderKey it = k))).Pairwise
      (fun a b => orderKey a ≤ orderKey b) := by
  apply List.pairwise_of_forall_mem_list
  intro a ha b hb
  have hka := of_decide_eq_true (List.mem_filter.mp ha).2
  have hkb := of_decide_eq_true (List.mem_filter.mp hb).2
  rw [hka, hkb]

/-- `orderKey` takes only the comparator values -1, 0, 1. -/
theorem orderKey_cases (a : PluginItem) :
    orderKey a = -1 ∨ orderKey a = 0 ∨ orderKey a = 1 := by
  unfold orderKey
  rcases a.applyOrder with _ | o
  · exact Or.inr (Or.inl rfl)
  · cases o
    · exact Or.inl rfl
    · exact Or.inr (Or.inr rfl)

theorem trigger_eq_none (env : Env) (t : String) (args : List Val) (s : EventEmitter)
    (h : List.lookup t s.events = none) :
    trigger env t args s = (hasType t s, Val.undef) := by
  unfold trigger
  have h2 : List.lookup t (hasType t s).events = none := by rw [hasType_events]; exact h
  simp only [h2]

theorem trigger_eq_some (env : Env) (t : String) (args : List Val) (s : EventEmitter)
    (evs : List (Fn × Option Nat)) (h : List.lookup t s.events = some evs) :
    trigger env t args s = triggerLoop env args evs (hasType t s) := by
  unfold trigger
  have h2 : List.lookup t (hasType t s).events = some evs := by rw [hasType_events]; exact h
  simp only [h2]

theorem off_found (t : String) (g : Fn) (s : EventEmitter)
    (hne : t.isEmpty = false) (evs : List (Fn × Option Nat))
    (hl : List.lookup t s.events = some evs) :
    off (some t) (some g) s
      = ({ hasType t s with
            events := alSet (hasType t s).events t (evs.filter (fun p => !offMatch g p.1)) },
          true) := by
  unfold off
  have h2 : List.lookup t (hasType t s).events = some evs := by rw [hasType_events]; exact hl
  simp only [hne, Bool.not_false, Option.isNone_some, Bool.and_false, Option.getD_some,
    Bool.false_eq_true, if_false, if_true, h2]

theorem off_missing (t : String) (g : Fn) (s : EventEmitter)
    (hne : t.isEmpty = false) (hl : List.lookup t s.events = none) :
    off (some t) (some g) s = (hasType t s, true) := by
  unfold off
  have h2 : List.lookup t (hasType t s).events = none := by rw [hasType_events]; exact hl
  simp only [hne, Bool.not_false, Option.isNone_some, Bool.and_false, Option.getD_some,
    Bool.false_eq_true, if_false, if_true, h2]

theorem applyFn_user (env : Env) (i : Nat) (cc : Option Nat) (args : List Val) (s : EventEmitter) :
    applyFn env (Fn.user i) cc args s
      = (execActions (env i args).1
          { s with invocations := s.invocations ++ [(i, cc, args)] }, (env i args).2) := rfl

theorem applyFn_magic (env : Env) (u : Nat) (ty : String) (inner : Fn) (mc : Option Nat)
    (cc : Option Nat) (args : List Val) (s : EventEmitter) :
    applyFn env (Fn.magic u ty inner mc) cc args s
      = ((applyFn env inner mc args ((off (some ty) (some (Fn.magic u ty inner mc)) s).1)).1,
          if (applyFn env inner mc args
                ((off (some ty) (some (Fn.magic u ty inner mc)) s).1)).2 = Val.boolTrue
          then Val.boolTrue else Val.undef) := rfl

theorem triggerLoop_single (env : Env) (args : List Val) (f : Fn) (c : Option Nat)
    (s : EventEmitter) :
    triggerLoop env args [(f, c)] s
      = ((applyFn env f c args s).1,
          if (applyFn env f c args s).2 = Val.boolTrue then Val.boolTrue else Val.undef) := by
  by_cases h : (applyFn env f c args s).2 = Val.boolTrue <;> simp [triggerLoop, h]

theorem use_of_installed (c : PluginCtor) (s : RegistryState)
    (h : s.plugins.any (fun p => decide (p.ctor = c)) = true) : use c s = s := by
  unfold use
  simp only [h, if_true]

theorem use_of_not_installed (c : PluginCtor) (s : RegistryState)
    (h : s.plugins.any (fun p => decide (p.ctor = c)) = false) :
    use c s
      = { plugins := s.plugins ++ [{ name := c.pluginName, applyOrder := c.applyOrder, ctor := c }],
          pluginsMap :=
            if c.pluginName ∈ s.pluginsMap then s.pluginsMap
            else s.pluginsMap ++ [c.pluginName] } := by
  unfold use
  simp only [h, Bool.false_eq_true, if_false]

/-!  The claim theorems.  -/

/-- C6: enabled plugins are instantiated in the order given by a stable
sort of the registry by apply-order key — the sorted list is ordered by
key (`Pre` = -1 before default = 0 before `Post` = 1), each equal-key
bucket keeps the registry's relative order, and registering A(Pre),
B(Post), C(Default) in that order and enabling all three yields
instantiation order A, C, B. -/
theorem applyPlugins_stable_order :
    (∀ l : List PluginItem,
        (sortPlugins l).Pairwise (fun a b => orderKey a ≤ orderKey b))
    ∧ (∀ (l : List PluginItem) (k : Int),
        (sortPlugins l).filter (fun it => decide (orderKey it = k))
          = l.filter (fun it => decide (orderKey it = k)))
    ∧ applyPlugins regABC.plugins (fun _ => true) = [("A", 0), ("C", 2), ("B", 1)] := by
  refine ⟨?_, ?_, by decide⟩
  · intro l
    unfold sortPlugins
    rw [List.pairwise_append, List.pairwise_append]
    refine ⟨⟨pairwise_bucket l (-1), pairwise_bucket l 0, ?_⟩, pairwise_bucket l 1, ?_⟩
    · intro a ha b hb
      have hka := of_decide_eq_true (List.mem_filter.mp ha).2
      have hkb := of_decide_eq_true (List.mem_filter.mp hb).2
      rw [hka, hkb]; decide
    · intro a ha b hb
      have hkb := of_decide_eq_true (List.mem_filter.mp hb).2
      rcases List.mem_append.mp ha with ha | ha
      · have hka := of_decide_eq_true (List.mem_filter.mp ha).2
        rw [hka, hkb]; decide
      · have hka := of_decide_eq_true (List.mem_filter.mp ha).2
        rw [hka, hkb]; decide
  · intro l k
    unfold sortPlugins
    rw [List.filter_append, List.filter_append]
    by_cases h1 : k = -1
    · subst h1
      rw [bucket_self, bucket_other l (by decide), bucket_other l (by decide)]
      simp
    · by_cases h2 : k = 0
      · subst h2
        rw [bucket_self, bucket_other l (by decide), bucket_other l (by decide)]
        simp
      · by_cases h3 : k = 1
        · subst h3
          rw [bucket_self, bucket_other l (by decide), bucket_other l (by decide)]
          simp
        · rw [bucket_other l h1, bucket_other l h2, bucket_other l h3]
          have hr : l.filter (fun it => decide (orderKey it = k)) = [] := by
            apply List.filter_eq_nil_iff.mpr
            intro a _
            rcases orderKey_cases a with h | h | h <;>
              · simp only [h, decide_eq_true_eq]
                omega
          rw [hr]
          rfl

/-- C1: for any sequence of `on` registrations on a type with no prior
subscriptions followed by one `trigger`, the handlers are invoked in
registration order, each with its stored context and the trigger
arguments; dispatch stops right after the first handler returning literal
`true`, in which case `trigger` returns `true`, and otherwise `trigger`
returns no explicit value after exhausting the list — exactly
`specDispatch`, the spec-side description of the pass. -/
theorem trigger_dispatch_order (env : Env) (t : String) (args : List Val)
    (s0 : EventEmitter) (hs : List (Nat × Option Nat))
    (hev : List.lookup t s0.events = none ∨ List.lookup t s0.events = some []) :
    (trigger env t args (onFold t hs s0)).2 = (specDispatch env args hs).2
    ∧ (trigger env t args (onFold t hs s0)).1.invocations
        = s0.invocations ++ (specDispatch env args hs).1 := by
  rcases Decidable.em (hs = []) with hnil | hnil
  · subst hnil
    rcases hev with h | h
    · rw [show onFold t [] s0 = s0 from rfl, trigger_eq_none env t args s0 h]
      simp [specDispatch]
    · rw [show onFold t [] s0 = s0 from rfl, trigger_eq_some env t args s0 [] h]
      simp [specDispatch, triggerLoop]
  · have hget : ((List.lookup t s0.events).getD []) = [] := by
      rcases hev with h | h <;> simp [h]
    have hlook : List.lookup t (onFold t hs s0).events
        = some (hs.map (fun p => (Fn.user p.1, p.2))) := by
      rw [onFold_lookup t hs s0 hnil, hget]
      simp
    rw [trigger_eq_some env t args _ _ hlook]
    have hspec := triggerLoop_spec env args (hs.map (fun p => (Fn.user p.1, p.2)))
      (hasType t (onFold t hs s0))
    refine ⟨?_, ?_⟩
    · rw [hspec.2, specLoop_users]
    · rw [hspec.1, specLoop_users]
      simp

/-- C1 witness: three handlers registered on `"ev"`; handler 1 returns
literal `true`, so handlers 0 and 1 fire (in order, with their contexts
and the empty argument list) and `trigger` returns `true`. -/
theorem trigger_dispatch_order_witness :
    (List.lookup "ev" (mkEmitter ["ev"]).events = none
        ∨ List.lookup "ev" (mkEmitter ["ev"]).events = some [])
    ∧ (trigger envT "ev" [] (onFold "ev" [(0, none), (1, none), (2, none)] (mkEmitter ["ev"]))).2
        = (specDispatch envT [] [(0, none), (1, none), (2, none)]).2
    ∧ (trigger envT "ev" [] (onFold "ev" [(0, none), (1, none), (2, none)] (mkEmitter ["ev"]))).1.invocations
        = (mkEmitter ["ev"]).invocations
            ++ (specDispatch envT [] [(0, none), (1, none), (2, none)]).1 :=
  ⟨Or.inl (by decide),
    (trigger_dispatch_order envT "ev" [] (mkEmitter ["ev"])
      [(0, none), (1, none), (2, none)] (Or.inl (by decide))).1,
    (trigger_dispatch_order envT "ev" [] (mkEmitter ["ev"])
      [(0, none), (1, none), (2, none)] (Or.inl (by decide))).2⟩

/-- C2: absent a `true` short-circuit, one `trigger` pass invokes exactly
the subscriptions present for the type at the moment of the call, in
order — whatever `on`/`once`/`off` mutations the invoked handler bodies
perform (the `env` is arbitrary, so this covers handlers unsubscribing
themselves or others mid-pass): dispatch iterates the trigger-time
snapshot. -/
theorem trigger_snapshot_isolation (env : Env) (t : String) (args : List Val) (s : EventEmitter)
    (h : ∀ p ∈ (List.lookup t s.events).getD [], invVal env args p.1 ≠ Val.boolTrue) :
    (trigger env t args s).1.invocations
      = s.invocations ++ invokedLog args ((List.lookup t s.events).getD []) := by
  cases hl : List.lookup t s.events with
  | none =>
    rw [trigger_eq_none env t args s hl]
    simp [invokedLog]
  | some evs =>
    rw [hl] at h
    simp only [Option.getD_some] at h
    rw [trigger_eq_some env t args s evs hl]
    have hspec := triggerLoop_spec env args evs (hasType t s)
    rw [hspec.1, specLoop_no_true env args evs h]
    simp

/-- C2 witness: handlers 1 and 2 subscribed on `"ev"`; handler 1's body
unsubscribes handler 2 during the pass, yet both fire. -/
theorem trigger_snapshot_isolation_witness :
    (∀ p ∈ (List.lookup "ev"
        (onFold "ev" [(1, none), (2, none)] (mkEmitter ["ev"])).events).getD [],
      invVal envOffAct [] p.1 ≠ Val.boolTrue)
    ∧ (trigger envOffAct "ev" [] (onFold "ev" [(1, none), (2, none)] (mkEmitter ["ev"]))).1.invocations
        = (onFold "ev" [(1, none), (2, none)] (mkEmitter ["ev"])).invocations
            ++ invokedLog []
                ((List.lookup "ev"
                  (onFold "ev" [(1, none), (2, none)] (mkEmitter ["ev"])).events).getD []) :=
  ⟨by decide,
    trigger_snapshot_isolation envOffAct "ev" []
      (onFold "ev" [(1, none), (2, none)] (mkEmitter ["ev"])) (by decide)⟩

/-- C3 counterexample: for the event type `""` the claim fails on the
code — after `once("", h)`, the adapter's `this.off("", magic)` is a
no-op (`off` treats the falsy empty-string type as absent), so `h` fires
on *both* of two successive `trigger("")` calls: two invocations of
handler 0, not one. -/
theorem once_empty_type_counterexample :
    ((trigger env0 "" []
        ((trigger env0 "" [] (once "" (Fn.user 0) none (mkEmitter []))).1)).1.invocations.filter
          (fun e => decide (e.1 = 0))).length = 2 := by decide

/-- C3 (amended): for every handler and every *non-empty* event type with
no prior subscriptions for it, after `once(type, h)` (with `h` performing
no bus mutations of its own) two successive `trigger(type)` calls invoke
`h` exactly once — the first trigger invokes it, the second does not.
(For the empty-string type the adapter's self-removal is skipped by
`off`'s truthiness check and `h` fires on both triggers.) -/
theorem once_single_invocation (env : Env) (t : String) (hid : Nat) (c : Option Nat)
    (s0 : EventEmitter)
    (hne : t.isEmpty = false)
    (hev : List.lookup t s0.events = none ∨ List.lookup t s0.events = some [])
    (hact : (env hid []).1 = []) :
    ((trigger env t []
        ((trigger env t [] (once t (Fn.user hid) c s0)).1)).1.invocations.filter
          (fun e => decide (e.1 = hid))).length
      = (s0.invocations.filter (fun e => decide (e.1 = hid))).length + 1 := by
  set m := Fn.magic s0.fresh t (Fn.user hid) c with hm
  set s1 := once t (Fn.user hid) c s0 with hs1
  have hs1look : List.lookup t s1.events = some [(m, none)] := by
    rw [hs1]
    unfold once
    rw [onFn_lookup_self]
    rcases hev with h | h <;> simp [h, hm]
  have hs1inv : s1.invocations = s0.invocations := by
    rw [hs1]; exact once_invocations t (Fn.user hid) c s0
  -- the adapter matches itself, so its self-removal empties the list
  have hmm : offMatch m m = true := by
    unfold offMatch
    rw [decide_eq_true rfl]
    exact Bool.true_or _
  have hfilter : [(m, (none : Option Nat))].filter (fun p => !offMatch m p.1) = [] := by
    simp [hmm]
  -- the state reached after the adapter's self-removal
  have hlook1 : List.lookup t (hasType t s1).events = some [(m, none)] := by
    rw [hasType_events]; exact hs1look
  have hoff := off_found t m (hasType t s1) hne [(m, none)] hlook1
  rw [hfilter] at hoff
  set s2 := (off (some t) (some m) (hasType t s1)).1 with hs2
  have hs2look : List.lookup t s2.events = some [] := by
    rw [hs2, hoff]
    exact lookup_alSet_self _ _ _
  have hs2inv : s2.invocations = s0.invocations := by
    rw [hs2, off_invocations]
    simp [hs1inv]
  -- the state reached after the wrapped handler ran
  set s3 := (applyFn env (Fn.user hid) c [] s2).1 with hs3
  have hs3eq : s3 = { s2 with invocations := s2.invocations ++ [(hid, c, [])] } := by
    rw [hs3, applyFn_user]
    simp only [hact, execActions]
  have hs3look : List.lookup t s3.events = some [] := by
    rw [hs3eq]
    exact hs2look
  have hs3inv : s3.invocations = s0.invocations ++ [(hid, c, [])] := by
    rw [hs3eq]
    simp [hs2inv]
  -- the first trigger ends in state `s3` whatever the handler returned
  have ht1 : (trigger env t [] s1).1 = s3 := by
    rw [trigger_eq_some env t [] s1 [(m, none)] hs1look, triggerLoop_single, applyFn_magic]
  -- the second trigger dispatches over the now-empty list
  have ht2 : (trigger env t [] s3).1 = hasType t s3 := by
    rw [trigger_eq_some env t [] s3 [] hs3look]
    rfl
  rw [ht1, ht2, hasType_invocations, hs3inv, List.filter_append]
  simp

/-- C3 witness for the amended claim, at the non-empty type `"ev"`. -/
theorem once_single_invocation_witness :
    ("ev".isEmpty = false
      ∧ (List.lookup "ev" (mkEmitter ["ev"]).events = none
          ∨ List.lookup "ev" (mkEmitter ["ev"]).events = some [])
      ∧ (env0 0 []).1 = [])
    ∧ ((trigger env0 "ev" []
          ((trigger env0 "ev" [] (once "ev" (Fn.user 0) none (mkEmitter ["ev"]))).1)).1.invocations.filter
            (fun e => decide (e.1 = 0))).length
        = ((mkEmitter ["ev"]).invocations.filter (fun e => decide (e.1 = 0))).length + 1 :=
  ⟨⟨by decide, Or.inl (by decide), by decide⟩,
    once_single_invocation env0 "ev" 0 none (mkEmitter ["ev"])
      (by decide) (Or.inl (by decide)) (by decide)⟩

theorem warn_ext_trans {s1 s3 : EventEmitter} (s2 : EventEmitter)
    (h1 : ∃ w, s2.warnings = s1.warnings ++ w)
    (h2 : ∃ w, s3.warnings = s2.warnings ++ w) :
    ∃ w, s3.warnings = s1.warnings ++ w := by
  obtain ⟨w1, hw1⟩ := h1
  obtain ⟨w2, hw2⟩ := h2
  exact ⟨w1 ++ w2, by rw [hw2, hw1, List.append_assoc]⟩

theorem hasType_warnings_ext (t : String) (s : EventEmitter) :
    ∃ w, (hasType t s).warnings = s.warnings ++ w := by
  unfold hasType
  split
  · exact ⟨[], by simp⟩
  · exact ⟨[t], rfl⟩

theorem onFn_warnings_ext (t : String) (f : Fn) (c : Option Nat) (s : EventEmitter) :
    ∃ w, (onFn t f c s).warnings = s.warnings ++ w := by
  obtain ⟨w, hw⟩ := hasType_warnings_ext t s
  exact ⟨w, by rw [onFn]; exact hw⟩

theorem once_warnings_ext (t : String) (f : Fn) (c : Option Nat) (s : EventEmitter) :
    ∃ w, (once t f c s).warnings = s.warnings ++ w := by
  rw [once]
  refine warn_ext_trans (hasType t s) (hasType_warnings_ext t s) ?_
  obtain ⟨w, hw⟩ := onFn_warnings_ext t (Fn.magic (hasType t s).fresh t f c) none
    { hasType t s with fresh := (hasType t s).fresh + 1 }
  exact ⟨w, hw⟩

theorem off_warnings_ext (ty : Option String) (f : Option Fn) (s : EventEmitter) :
    ∃ w, ((off ty f s).1).warnings = s.warnings ++ w := by
  cases ty with
  | none => cases f <;> refine ⟨[], ?_⟩ <;> rw [List.append_nil] <;> rfl
  | some t =>
    by_cases he : t.isEmpty
    · cases f <;> exact ⟨[], by rw [List.append_nil]; simp [off, he]⟩
    · have hne : t.isEmpty = false := eq_false_of_ne_true he
      obtain ⟨w, hw⟩ := hasType_warnings_ext t s
      cases f with
      | none => exact ⟨w, by simp [off, hne]; exact hw⟩
      | some g =>
        cases hg : List.lookup t s.events with
        | none => rw [off_missing t g s hne hg]; exact ⟨w, hw⟩
        | some evs => rw [off_found t g s hne evs hg]; exact ⟨w, hw⟩

theorem execAction_warnings_ext (a : Action) (s : EventEmitter) :
    ∃ w, (execAction a s).warnings = s.warnings ++ w := by
  cases a with
  | actOn ty hid ctx => exact onFn_warnings_ext ty (Fn.user hid) ctx s
  | actOnce ty hid ctx => exact once_warnings_ext ty (Fn.user hid) ctx s
  | actOff ty hid => exact off_warnings_ext ty (hid.map Fn.user) s

theorem execActions_warnings_ext (acts : List Action) (s : EventEmitter) :
    ∃ w, (execActions acts s).warnings = s.warnings ++ w := by
  induction acts generalizing s with
  | nil => exact ⟨[], by simp [execActions]⟩
  | cons a rest ih =>
    exact warn_ext_trans (execAction a s) (execAction_warnings_ext a s)
      (ih (execAction a s))

theorem applyFn_warnings_ext (env : Env) (f : Fn) (c : Option Nat) (args : List Val)
    (s : EventEmitter) :
    ∃ w, ((applyFn env f c args s).1).warnings = s.warnings ++ w := by
  induction f generalizing c s with
  | user i =>
    rw [applyFn_user]
    obtain ⟨w, hw⟩ := execActions_warnings_ext (env i args).1
      { s with invocations := s.invocations ++ [(i, c, args)] }
    exact ⟨w, hw⟩
  | magic u ty inner mc ih =>
    rw [applyFn_magic]
    exact warn_ext_trans ((off (some ty) (some (Fn.magic u ty inner mc)) s).1)
      (off_warnings_ext _ _ s) (ih mc _)

theorem triggerLoop_warnings_ext (env : Env) (args : List Val)
    (l : List (Fn × Option Nat)) (s : EventEmitter) :
    ∃ w, ((triggerLoop env args l s).1).warnings = s.warnings ++ w := by
  induction l generalizing s with
  | nil => exact ⟨[], by simp [triggerLoop]⟩
  | cons p rest ih =>
    obtain ⟨f, c⟩ := p
    by_cases hv : (applyFn env f c args s).2 = Val.boolTrue
    · simp only [triggerLoop, hv, if_true]
      exact applyFn_warnings_ext env f c args s
    · simp only [triggerLoop, hv, if_false]
      exact warn_ext_trans ((applyFn env f c args s).1)
        (applyFn_warnings_ext env f c args s) (ih _)

theorem invLog_ids (args : List Val) (f : Fn) (c : Option Nat) :
    ∀ e ∈ invLog args f c, e.1 ∈ fnIds f := by
  induction f generalizing c with
  | user i => intro e he; simp [invLog] at he; simp [he, fnIds]
  | magic u ty inner mc ih => intro e he; exact ih mc e he

theorem specLoop_ids (env : Env) (args : List Val) (l : List (Fn × Option Nat)) :
    ∀ e ∈ (specLoop env args l).1, ∃ p ∈ l, e.1 ∈ fnIds p.1 := by
  induction l with
  | nil => intro e he; simp [specLoop] at he
  | cons p rest ih =>
    obtain ⟨f, c⟩ := p
    intro e he
    by_cases hv : invVal env args f = Val.boolTrue
    · simp only [specLoop, hv, if_true] at he
      exact ⟨(f, c), by simp, invLog_ids args f c e he⟩
    · simp only [specLoop, hv, if_false, List.mem_append] at he
      rcases he with he | he
      · exact ⟨(f, c), by simp, invLog_ids args f c e he⟩
      · obtain ⟨q, hq, hq2⟩ := ih e he
        exact ⟨q, by simp [hq], hq2⟩

/-- A single-level subscription that `off(type, h)` does not match cannot
invoke `h`. -/
theorem shape_no_hid (hid : Nat) (f : Fn) (hfs : fnShapeOK f = true)
    (hmatch : offMatch (Fn.user hid) f = false) : hid ∉ fnIds f := by
  cases f with
  | user j =>
    unfold offMatch at hmatch
    rw [Bool.or_eq_false_iff] at hmatch
    have hne : Fn.user j ≠ Fn.user hid := of_decide_eq_false hmatch.1
    simp only [fnIds, List.mem_singleton]
    intro hj
    exact hne (by rw [hj])
  | magic u ty inner mc =>
    cases inner with
    | user j =>
      unfold offMatch at hmatch
      rw [Bool.or_eq_false_iff] at hmatch
      have hne : fnProp (Fn.magic u ty (Fn.user j) mc) ≠ some (Fn.user hid) :=
        of_decide_eq_false hmatch.2
      simp only [fnIds, List.mem_singleton]
      intro hj
      exact hne (by simp [fnProp, hj])
    | magic v ty2 inner2 mc2 => simp [fnShapeOK] at hfs

/-- C4 counterexample: for the event type `""` the claim fails on the
code — `off("", h)` is a no-op (`off` treats the falsy empty-string type
as absent), so a subsequent `trigger("")` still invokes `h` once. -/
theorem off_empty_type_counterexample :
    ((trigger env0 "" []
        ((off (some "") (some (Fn.user 0)) (onFn "" (Fn.user 0) none (mkEmitter []))).1)).1.invocations.filter
          (fun e => decide (e.1 = 0))).length = 1 := by decide

/-- C4 (amended): for every handler `h` subscribed on a *non-empty* event
type — via `on` or via `once`, i.e. any single-level subscription shape —
`off(type, h)` removes every subscription matching `h` by identity or by
the wrapper's retained original-handler reference, and a subsequent
`trigger(type)` does not invoke `h`.  (For the empty-string type `off`
removes nothing and the handler still fires.) -/
theorem off_removes_handler_dispatch (env : Env) (t : String) (args : List Val) (hid : Nat)
    (s : EventEmitter) (hne : t.isEmpty = false)
    (hshape : ∀ p ∈ (List.lookup t s.events).getD [], fnShapeOK p.1 = true) :
    (∀ p ∈ (List.lookup t ((off (some t) (some (Fn.user hid)) s).1).events).getD [],
        offMatch (Fn.user hid) p.1 = false)
    ∧ ((trigger env t args ((off (some t) (some (Fn.user hid)) s).1)).1.invocations.filter
          (fun e => decide (e.1 = hid)))
        = (((off (some t) (some (Fn.user hid)) s).1).invocations.filter
            (fun e => decide (e.1 = hid))) := by
  cases hl : List.lookup t s.events with
  | none =>
    have hoff := off_missing t (Fn.user hid) s hne hl
    rw [hoff]
    have hlook : List.lookup t (hasType t s).events = none := by
      rw [hasType_events]; exact hl
    constructor
    · rw [hlook]; intro p hp; simp at hp
    · rw [trigger_eq_none env t args _ hlook]
      simp
  | some evs =>
    rw [hl] at hshape
    simp only [Option.getD_some] at hshape
    have hoff := off_found t (Fn.user hid) s hne evs hl
    rw [hoff]
    have hlook : List.lookup t
        ({ hasType t s with
            events := alSet (hasType t s).events t
              (evs.filter (fun p => !offMatch (Fn.user hid) p.1)) }).events
        = some (evs.filter (fun p => !offMatch (Fn.user hid) p.1)) := lookup_alSet_self _ _ _
    constructor
    · rw [hlook]
      intro p hp
      simp only [Option.getD_some, List.mem_filter] at hp
      rw [Bool.not_eq_eq_eq_not, Bool.not_true] at hp
      exact hp.2
    · rw [trigger_eq_some env t args _ _ hlook]
      rw [(triggerLoop_spec env args _ _).1]
      rw [List.filter_append, hasType_invocations]
      have hnil : ((specLoop env args
          (evs.filter (fun p => !offMatch (Fn.user hid) p.1))).1.filter
            (fun e => decide (e.1 = hid))) = [] := by
        apply List.filter_eq_nil_iff.mpr
        intro e he
        obtain ⟨p, hp, hploc⟩ := specLoop_ids env args _ e he
        have hpev := List.mem_filter.mp hp
        have hnm : offMatch (Fn.user hid) p.1 = false := by
          have := hpev.2
          rw [Bool.not_eq_eq_eq_not, Bool.not_true] at this
          exact this
        have hnot := shape_no_hid hid p.1 (hshape p hpev.1) hnm
        simp only [decide_eq_true_eq]
        intro hc
        exact hnot (hc ▸ hploc)
      rw [hnil, List.append_nil]

/-- C4 witness for the amended claim: handler 0 registered via `on` and
handler 1 via `once` on `"ev"`; `off("ev", h0)` removes handler 0's
subscription and the following trigger never invokes handler 0. -/
theorem off_removes_handler_dispatch_witness :
    ("ev".isEmpty = false
      ∧ ∀ p ∈ (List.lookup "ev"
            (once "ev" (Fn.user 1) none
              (onFn "ev" (Fn.user 0) none (mkEmitter ["ev"]))).events).getD [],
          fnShapeOK p.1 = true)
    ∧ ((∀ p ∈ (List.lookup "ev" ((off (some "ev") (some (Fn.user 0))
            (once "ev" (Fn.user 1) none
              (onFn "ev" (Fn.user 0) none (mkEmitter ["ev"])))).1).events).getD [],
          offMatch (Fn.user 0) p.1 = false)
        ∧ ((trigger env0 "ev" [] ((off (some "ev") (some (Fn.user 0))
              (once "ev" (Fn.user 1) none
                (onFn "ev" (Fn.user 0) none (mkEmitter ["ev"])))).1)).1.invocations.filter
                  (fun e => decide (e.1 = 0)))
            = (((off (some "ev") (some (Fn.user 0))
                (once "ev" (Fn.user 1) none
                  (onFn "ev" (Fn.user 0) none (mkEmitter ["ev"])))).1).invocations.filter
                    (fun e => decide (e.1 = 0)))) :=
  ⟨⟨by decide, by decide⟩,
    off_removes_handler_dispatch env0 "ev" [] 0
      (once "ev" (Fn.user 1) none (onFn "ev" (Fn.user 0) none (mkEmitter ["ev"])))
      (by decide) (by decide)⟩

/-- C5 counterexample: the adapter does *not* forward an arbitrary return
value of the wrapped handler to the dispatcher.  With handler 1 returning
the number `42`, the adapter allocated by `once("t", h)` returns
`undefined` when invoked during a pass, not `42`. -/
theorem once_return_forwarding_counterexample :
    (env42 1 []).2 = Val.num 42
    ∧ (applyFn env42 (Fn.magic 0 "t" (Fn.user 1) none) none []
        (once "t" (Fn.user 1) none (mkEmitter ["t"]))).2 ≠ (env42 1 []).2 := by decide

/-- C5 (amended): when the adapter created by `once(type, h)` is invoked
during a dispatch pass it first unsubscribes itself from `type` and then
invokes `h` with the captured context — its state effect is exactly
`off(type, magic)` followed by applying `h` — and it returns `h`'s value
when that value is exactly the boolean `true`, and `undefined` otherwise:
non-`true` return values are not forwarded to the dispatcher. -/
theorem once_adapter_semantics (env : Env) (u : Nat) (ty : String) (inner : Fn)
    (mc cc : Option Nat) (args : List Val) (s : EventEmitter) :
    (applyFn env (Fn.magic u ty inner mc) cc args s).1
        = (applyFn env inner mc args
            ((off (some ty) (some (Fn.magic u ty inner mc)) s).1)).1
    ∧ (applyFn env (Fn.magic u ty inner mc) cc args s).2
        = (if invVal env args inner = Val.boolTrue then Val.boolTrue else Val.undef) := by
  constructor
  · rw [applyFn_magic]
  · rw [applyFn_magic]
    rw [(applyFn_spec env inner mc args _).2]

/-- C8 counterexample: `off` invoked with the undeclared empty-string
event type emits *no* diagnostic and does *not* proceed — the state
(warnings and subscriptions alike) is untouched, the matching
subscription stays registered, and the call returns `undefined`. -/
theorem bus_undeclared_empty_type_counterexample :
    off (some "") (some (Fn.user 0)) (onFn "" (Fn.user 0) none (mkEmitter []))
      = (onFn "" (Fn.user 0) none (mkEmitter []), false) := by decide

/-- C8 (amended): for every bus operation invoked with a *non-empty* event
type absent from the declared-type set, a non-fatal diagnostic is emitted
and the operation still proceeds normally — `on`/`once` still register the
subscription, `off` still removes matching subscriptions and returns the
emitter, and `trigger` still dispatches over whatever subscriptions exist
(nothing throws: every operation is total).  (For the empty-string type,
`off(type, handler)` emits no diagnostic and removes nothing.) -/
theorem bus_undeclared_type_lenient (env : Env) (t : String) (f g : Fn) (c : Option Nat)
    (args : List Val) (s : EventEmitter)
    (hne : t.isEmpty = false) (hund : t ∉ s.eventTypes) :
    ((onFn t f c s).warnings = s.warnings ++ [t]
      ∧ List.lookup t (onFn t f c s).events
          = some (((List.lookup t s.events).getD []) ++ [(f, c)]))
    ∧ ((once t f c s).warnings = s.warnings ++ [t] ++ [t]
      ∧ List.lookup t (once t f c s).events
          = some (((List.lookup t s.events).getD []) ++ [(Fn.magic s.fresh t f c, none)]))
    ∧ ((off (some t) (some g) s).2 = true
      ∧ ((off (some t) (some g) s).1).warnings = s.warnings ++ [t]
      ∧ List.lookup t ((off (some t) (some g) s).1).events
          = (List.lookup t s.events).map (fun evs => evs.filter (fun p => !offMatch g p.1)))
    ∧ ((trigger env t args s).2
          = (specLoop env args ((List.lookup t s.events).getD [])).2
      ∧ (trigger env t args s).1.invocations
          = s.invocations ++ (specLoop env args ((List.lookup t s.events).getD [])).1
      ∧ ∃ w, (trigger env t args s).1.warnings = s.warnings ++ [t] ++ w) := by
  have hwarn := hasType_of_not_mem t s hund
  refine ⟨⟨?_, onFn_lookup_self t f c s⟩, ⟨?_, ?_⟩, ⟨?_, ?_, ?_⟩, ?_, ?_, ?_⟩
  · rw [onFn, hwarn]
  · rw [once, onFn]
    have hund2 : t ∉ ({ hasType t s with fresh := (hasType t s).fresh + 1 }).eventTypes := by
      simpa using hund
    rw [hasType_of_not_mem t _ hund2, hwarn]
  · rw [once, onFn_lookup_self, hwarn]
  · cases hg : List.lookup t s.events with
    | none => rw [off_missing t g s hne hg]
    | some evs => rw [off_found t g s hne evs hg]
  · cases hg : List.lookup t s.events with
    | none => rw [off_missing t g s hne hg]; rw [hwarn]
    | some evs => rw [off_found t g s hne evs hg]; rw [hwarn]
  · cases hg : List.lookup t s.events with
    | none =>
      rw [off_missing t g s hne hg]
      simp [hg]
    | some evs =>
      rw [off_found t g s hne evs hg]
      simp
  · cases hg : List.lookup t s.events with
    | none => rw [trigger_eq_none env t args s hg]; rfl
    | some evs =>
      rw [trigger_eq_some env t args s evs hg]
      exact (triggerLoop_spec env args evs (hasType t s)).2
  · cases hg : List.lookup t s.events with
    | none => rw [trigger_eq_none env t args s hg]; simp [specLoop]
    | some evs =>
      rw [trigger_eq_some env t args s evs hg]
      rw [(triggerLoop_spec env args evs (hasType t s)).1, hasType_invocations]
      rfl
  · cases hg : List.lookup t s.events with
    | none =>
      rw [trigger_eq_none env t args s hg, hwarn]
      exact ⟨[], by simp⟩
    | some evs =>
      rw [trigger_eq_some env t args s evs hg]
      obtain ⟨w, hw⟩ := triggerLoop_warnings_ext env args evs (hasType t s)
      exact ⟨w, by rw [hw, hwarn]⟩

/-- C8 witness for the amended claim: the type `"ev"` is undeclared on an
emitter holding one `"ev"` subscription (handler 3); `on`, `once`, `off`
and `trigger` all warn and proceed. -/
theorem bus_undeclared_type_lenient_witness :
    ("ev".isEmpty = false
      ∧ "ev" ∉ (onFold "ev" [(3, none)] (mkEmitter [])).eventTypes)
    ∧ (((onFn "ev" (Fn.user 7) none (onFold "ev" [(3, none)] (mkEmitter []))).warnings
          = (onFold "ev" [(3, none)] (mkEmitter [])).warnings ++ ["ev"]
      ∧ List.lookup "ev" (onFn "ev" (Fn.user 7) none
            (onFold "ev" [(3, none)] (mkEmitter []))).events
          = some (((List.lookup "ev"
              (onFold "ev" [(3, none)] (mkEmitter [])).events).getD [])
              ++ [(Fn.user 7, none)]))
    ∧ ((once "ev" (Fn.user 7) none (onFold "ev" [(3, none)] (mkEmitter []))).warnings
          = (onFold "ev" [(3, none)] (mkEmitter [])).warnings ++ ["ev"] ++ ["ev"]
      ∧ List.lookup "ev" (once "ev" (Fn.user 7) none
            (onFold "ev" [(3, none)] (mkEmitter []))).events
          = some (((List.lookup "ev"
              (onFold "ev" [(3, none)] (mkEmitter [])).events).getD [])
              ++ [(Fn.magic (onFold "ev" [(3, none)] (mkEmitter [])).fresh "ev"
                    (Fn.user 7) none, none)]))
    ∧ ((off (some "ev") (some (Fn.user 3)) (onFold "ev" [(3, none)] (mkEmitter []))).2 = true
      ∧ ((off (some "ev") (some (Fn.user 3))
            (onFold "ev" [(3, none)] (mkEmitter []))).1).warnings
          = (onFold "ev" [(3, none)] (mkEmitter [])).warnings ++ ["ev"]
      ∧ List.lookup "ev" ((off (some "ev") (some (Fn.user 3))
            (onFold "ev" [(3, none)] (mkEmitter []))).1).events
          = (List.lookup "ev" (onFold "ev" [(3, none)] (mkEmitter [])).events).map
              (fun evs => evs.filter (fun p => !offMatch (Fn.user 3) p.1)))
    ∧ ((trigger env0 "ev" [] (onFold "ev" [(3, none)] (mkEmitter []))).2
          = (specLoop env0 [] ((List.lookup "ev"
              (onFold "ev" [(3, none)] (mkEmitter [])).events).getD [])).2
      ∧ (trigger env0 "ev" [] (onFold "ev" [(3, none)] (mkEmitter []))).1.invocations
          = (onFold "ev" [(3, none)] (mkEmitter [])).invocations
              ++ (specLoop env0 [] ((List.lookup "ev"
                  (onFold "ev" [(3, none)] (mkEmitter [])).events).getD [])).1
      ∧ ∃ w, (trigger env0 "ev" [] (onFold "ev" [(3, none)] (mkEmitter []))).1.warnings
          = (onFold "ev" [(3, none)] (mkEmitter [])).warnings ++ ["ev"] ++ w)) :=
  ⟨⟨by decide, by decide⟩,
    bus_undeclared_type_lenient env0 "ev" (Fn.user 7) (Fn.user 3) none []
      (onFold "ev" [(3, none)] (mkEmitter [])) (by decide) (by decide)⟩

/-- C7: re-registering the exact same constructor reference is a no-op on
the registry, while a different constructor sharing an already-present
name is appended (no deduplication by name). -/
theorem use_idempotent_and_name_collision :
    (∀ (s : RegistryState) (c : PluginCtor), use c (use c s) = use c s)
    ∧ ∀ (s : RegistryState) (c : PluginCtor),
        (∀ p ∈ s.plugins, p.ctor ≠ c) →
          c.pluginName ∈ s.plugins.map PluginItem.name →
            (use c s).plugins
              = s.plugins ++ [{ name := c.pluginName, applyOrder := c.applyOrder, ctor := c }] := by
  constructor
  · intro s c
    cases h : s.plugins.any (fun p => decide (p.ctor = c)) with
    | true =>
      have h1 : use c s = s := use_of_installed c s h
      rw [h1, h1]
    | false =>
      have h1 := use_of_not_installed c s h
      apply use_of_installed
      rw [h1]
      simp
  · intro s c hnot _
    have h : s.plugins.any (fun p => decide (p.ctor = c)) = false := by
      rw [List.any_eq_false]
      intro p hp
      simp [hnot p hp]
    rw [use_of_not_installed c s h]

/-- C7 witness: with `ctorP0` registered, re-registering `ctorP0` changes
nothing, and registering the distinct same-named `ctorP1` appends. -/
theorem use_idempotent_and_name_collision_witness :
    ((∀ p ∈ regP.plugins, p.ctor ≠ ctorP1)
      ∧ ctorP1.pluginName ∈ regP.plugins.map PluginItem.name)
    ∧ use ctorP0 (use ctorP0 { plugins := [], pluginsMap := [] })
        = use ctorP0 { plugins := [], pluginsMap := [] }
    ∧ (use ctorP1 regP).plugins
        = regP.plugins
          ++ [{ name := ctorP1.pluginName, applyOrder := ctorP1.applyOrder, ctor := ctorP1 }] :=
  ⟨⟨by decide, by decide⟩,
    use_idempotent_and_name_collision.1 { plugins := [], pluginsMap := [] } ctorP0,
    use_idempotent_and_name_collision.2 regP ctorP1 (by decide) (by decide)⟩

/-- C9: constructing a host whose options enable a name never registered
via `use` instantiates nothing for that name and leaves the host's plugin
map without an entry for it (host construction is a total function — no
error is possible). -/
theorem host_unregistered_plugin (registry : List PluginItem) (options : Options) (name : String)
    (_hopt : options name = true)
    (hmiss : name ∉ registry.map PluginItem.name) :
    (∀ p ∈ (mkHost registry options).plugins, p.1 ≠ name)
    ∧ List.lookup name (mkHost registry options).plugins = none := by
  have hmem : ∀ p ∈ (mkHost registry options).plugins, p.1 ≠ name := by
    intro p hp
    have hp2 : p ∈ applyPlugins registry options := hp
    rw [applyPlugins_eq] at hp2
    obtain ⟨a, ha, hfa⟩ := List.mem_filterMap.mp hp2
    by_cases h : options a.name
    · simp only [h, if_true] at hfa
      intro hk
      apply hmiss
      rw [List.mem_map]
      refine ⟨a, mem_sortPlugins ha, ?_⟩
      have heq := Option.some.inj hfa
      rw [← hk, ← heq]
    · simp [h] at hfa
  exact ⟨hmem, lookup_eq_none_of _ _ hmem⟩

/-- C9 witness: a host enabling the unregistered `"pluginX"` over the
A/B/C registry has no `"pluginX"` plugin. -/
theorem host_unregistered_plugin_witness :
    ((fun _ => true : Options) "pluginX" = true
      ∧ "pluginX" ∉ regABC.plugins.map PluginItem.name)
    ∧ (∀ p ∈ (mkHost regABC.plugins (fun _ => true)).plugins, p.1 ≠ "pluginX")
    ∧ List.lookup "pluginX" (mkHost regABC.plugins (fun _ => true)).plugins = none :=
  ⟨⟨by decide, by decide⟩,
    host_unregistered_plugin regABC.plugins (fun _ => true) "pluginX" (by decide) (by decide)⟩

/-- C10: `off` called with a handler but no event type leaves the whole
emitter state (subscriptions and declared types included) unchanged and
does not return the emitter for chaining — the call falls off the end of
`off`, returning `undefined`. -/
theorem off_no_type_noop (s : EventEmitter) (f : Fn) :
    off none (some f) s = (s, false) := rfl

end PlugInArch
